import Mathlib

/-!
Verification of `src/app/controller.py` from the repository
`add-parameters-to-revit-types-acc`.

The file shallowly embeds the algorithmic pieces of `Controller`:
* `create_json_from_params` (lines 376-403): grouping of flat table rows
  into nested parameter/target structures keyed by
  `(parameter_name, parameter_group)`, modelling Python's insertion-ordered
  `defaultdict(list)` by an ordered association list;
* the work-item poll loop shared verbatim by `process_with_workitem`
  (lines 327-343) and `export_to_ifc` (lines 522-538), with the status
  responses of the remote endpoint abstracted as an arbitrary sequence;
* the post-loop error raising (lines 345-349 and 540-544);
* the exception-handling skeletons of `process_with_workitem`,
  `export_to_ifc`, `get_view_names_for_file` and `get_view_names_options`,
  with the external effects (OAuth token retrieval, HTTP requests,
  manifest parsing) abstracted as fallible oracles.
-/

namespace Controller

/-! ## Table rows and the grouping transform (`create_json_from_params`) -/

/-- One row of the `step_params.table_section.targets` table: the five
text/option fields declared in `Parametrization` (controller.py lines
108-115). -/
structure TableRow where
  parameter_name : String
  parameter_group : String
  type_name : String
  family_name : String
  value : String
deriving DecidableEq, Repr

/-- One element of a `Targets` list, i.e. the dict
`{"TypeName": ..., "FamilyName": ..., "Value": ...}` appended at
controller.py lines 388-392. -/
structure Target where
  TypeName : String
  FamilyName : String
  Value : String
deriving DecidableEq, Repr

/-- One element of the result array, i.e. the dict
`{"ParameterName": ..., "ParameterGroup": ..., "Targets": ...}` appended at
controller.py lines 397-401. -/
structure ParamConfig where
  ParameterName : String
  ParameterGroup : String
  Targets : List Target
deriving DecidableEq, Repr

/-- The grouping key `(row["parameter_name"], row["parameter_group"])`
(controller.py line 387). -/
def rowKey (r : TableRow) : String × String :=
  (r.parameter_name, r.parameter_group)

/-- The target projection of a row (controller.py lines 388-392). -/
def targetOfRow (r : TableRow) : Target :=
  { TypeName := r.type_name, FamilyName := r.family_name, Value := r.value }

/-- Model of `grouped[key].append(t)` on an insertion-ordered map, modelling
`defaultdict(list)`: a CPython dict keeps keys in insertion order, so the
map is an association list; a fresh key is appended at the end, the value
list of an existing key gets `t` appended. -/
def insertGrouped (g : List ((String × String) × List Target))
    (key : String × String) (t : Target) :
    List ((String × String) × List Target) :=
  match g with
  | [] => [(key, [t])]
  | (k, ts) :: rest =>
    if k = key then (k, ts ++ [t]) :: rest
    else (k, ts) :: insertGrouped rest key t

/-- The `for row in ...: grouped[key].append({...})` loop of
`create_json_from_params` (controller.py lines 386-392). -/
def groupRows (rows : List TableRow) :
    List ((String × String) × List Target) :=
  rows.foldl (fun g row => insertGrouped g (rowKey row) (targetOfRow row)) []

/-- Embedding of `Controller.create_json_from_params` (controller.py lines 376-403):
group the table rows by `(parameter_name, parameter_group)`, then build the
result array by iterating `grouped.items()` in insertion order. -/
def create_json_from_params (rows : List TableRow) : List ParamConfig :=
  (groupRows rows).map fun kv =>
    { ParameterName := kv.1.1, ParameterGroup := kv.1.2, Targets := kv.2 }

/-- The key of a result entry. -/
def entryKey (e : ParamConfig) : String × String :=
  (e.ParameterName, e.ParameterGroup)

/-- Distinct elements of a list in first-occurrence order (used to state
the entry-order part of the grouping specification). -/
def dedupKeepFirst : List (String × String) → List (String × String)
  | [] => []
  | k :: ks => k :: dedupKeepFirst (ks.filter (fun x => x ≠ k))
termination_by l => l.length
decreasing_by
  simp only [List.length_cons]
  exact Nat.lt_succ_of_le (List.length_filter_le _ _)

/-! ## The work-item poll loop -/

/-- One JSON response of `get_workitem_status` (controller.py lines 40-44),
restricted to the two fields the loop reads: `s.get("status")` and
`s.get("reportUrl")` (`none` models an absent key / JSON `null`). -/
structure StatusResponse where
  status : Option String
  reportUrl : Option String
deriving DecidableEq, Repr

/-- Constant `poll_interval = 10` (controller.py lines 328 and 523). -/
def poll_interval : Nat := 10

/-- Constant `max_wait = 600` (controller.py lines 329 and 524). -/
def max_wait : Nat := 600

/-- The three terminal statuses of controller.py lines 340 and 535. -/
def terminalStatuses : List String := ["success", "failed", "cancelled"]

/-- Test `final_status in ("success", "failed", "cancelled")`; in Python,
`None in (...)` is `False`. -/
def isTerminal (s : Option String) : Bool :=
  match s with
  | some str => terminalStatuses.contains str
  | none => false

/-- Outcome of the poll loop: the values of `final_status` and
`report_url` after the loop, the number of calls to
`get_workitem_status`, and whether the loop exited via `break` (`true`)
or by the `while` condition failing (`false`). -/
structure PollResult where
  finalStatus : Option String
  reportUrl : Option String
  pollCount : Nat
  brokeEarly : Bool
deriving DecidableEq, Repr

/-- The body of the `while elapsed <= max_wait` loop of controller.py
lines 333-343 (identical at lines 528-538).  `responses i` is the JSON
returned by the `i`-th call to `get_workitem_status`; `elapsed` and the
poll index `idx` are the loop state, `fs`/`ru` the current values of
`final_status`/`report_url`.  Each iteration polls once, breaks when the
status is terminal, and otherwise sleeps and adds `poll_interval` to
`elapsed`. -/
def pollLoopAux (responses : Nat → StatusResponse) :
    Nat → Nat → Option String → Option String → PollResult
  | elapsed, idx, fs, ru =>
    if h : elapsed ≤ max_wait then
      let s := responses idx
      if isTerminal s.status then
        { finalStatus := s.status, reportUrl := s.reportUrl,
          pollCount := idx + 1, brokeEarly := true }
      else
        pollLoopAux responses (elapsed + poll_interval) (idx + 1)
          s.status s.reportUrl
    else
      { finalStatus := fs, reportUrl := ru, pollCount := idx,
        brokeEarly := false }
termination_by elapsed => max_wait + 1 - elapsed
decreasing_by
  simp only [poll_interval, max_wait] at *
  omega

/-- The whole poll loop of controller.py lines 327-343 (and 522-538):
`elapsed = 0`, `final_status = None`, `report_url = None`, then the
`while` loop. -/
def pollLoop (responses : Nat → StatusResponse) : PollResult :=
  pollLoopAux responses 0 0 none none

/-! ## The post-loop success check (lines 345-349 and 540-544) -/

/-- Python `f"{x}"` on an optional string: `None` prints as `"None"`. -/
def pyStr (s : Option String) : String :=
  match s with
  | some str => str
  | none => "None"

/-- Python truthiness of `report_url`: `None` and `""` are falsy. -/
def truthy (s : Option String) : Bool :=
  match s with
  | some str => !(str = "")
  | none => false

/-- Lines 345-349 / 540-544: if `final_status != "success"`, build the
error message (with the report URL appended when `report_url` is truthy)
and raise `vkt.UserError(msg)`; `some msg` models the raise, `none`
models falling through.  `prefixMsg` is
`"Automation did not finish with success. Status: "` in
`process_with_workitem` and
`"IFC export did not finish with success. Status: "` in `export_to_ifc`. -/
def checkPollOutcome (prefixMsg : String) (r : PollResult) : Option String :=
  if r.finalStatus ≠ some "success" then
    let msg := prefixMsg ++ pyStr r.finalStatus
    let msg :=
      if truthy r.reportUrl then
        msg ++ "\nReport URL: " ++ pyStr r.reportUrl
      else msg
    some msg
  else none

/-- Message prefix of controller.py line 346. -/
def workitemFailMsg : String :=
  "Automation did not finish with success. Status: "

/-- Message prefix of controller.py line 541. -/
def ifcFailMsg : String :=
  "IFC export did not finish with success. Status: "

end Controller

/-! ## Lemmas about the grouping transform -/

namespace Controller

/-- The step function of the grouping loop. -/
def groupStep (g : List ((String × String) × List Target)) (row : TableRow) :
    List ((String × String) × List Target) :=
  insertGrouped g (rowKey row) (targetOfRow row)

/-- The keys of a grouping, in order. -/
def keysOf (g : List ((String × String) × List Target)) : List (String × String) :=
  g.map Prod.fst

/-- Association lookup in a grouping, defaulting to `[]` (the
`defaultdict(list)` default). -/
def findTargets : List ((String × String) × List Target) → String × String → List Target
  | [], _ => []
  | (k, ts) :: rest, key => if k = key then ts else findTargets rest key

theorem keysOf_insertGrouped (g : List ((String × String) × List Target))
    (key : String × String) (t : Target) :
    keysOf (insertGrouped g key t) =
      if key ∈ keysOf g then keysOf g else keysOf g ++ [key] := by
  induction g with
  | nil => simp [insertGrouped, keysOf]
  | cons kv rest ih =>
    obtain ⟨k, ts⟩ := kv
    by_cases hk : k = key
    · subst hk
      simp [insertGrouped, keysOf]
    · simp only [insertGrouped, if_neg hk, keysOf, List.map_cons, List.mem_cons]
      have hne : ¬ key = k := fun h => hk h.symm
      simp only [keysOf] at ih
      rw [ih]
      by_cases hmem : key ∈ rest.map Prod.fst
      · simp [hmem, hne]
      · simp [hmem, hne]

theorem dedupKeepFirst_nil : dedupKeepFirst [] = [] := by
  rw [dedupKeepFirst.eq_def]

theorem dedupKeepFirst_cons (k : String × String) (ks : List (String × String)) :
    dedupKeepFirst (k :: ks) = k :: dedupKeepFirst (ks.filter (fun x => x ≠ k)) := by
  rw [dedupKeepFirst.eq_def]

theorem findTargets_insertGrouped (g : List ((String × String) × List Target))
    (key k' : String × String) (t : Target) :
    findTargets (insertGrouped g key t) k' =
      if k' = key then findTargets g key ++ [t] else findTargets g k' := by
  induction g with
  | nil =>
    by_cases h : k' = key
    · subst h; simp [insertGrouped, findTargets]
    · have h' : ¬ key = k' := fun hh => h hh.symm
      simp [insertGrouped, findTargets, h, h']
  | cons kv rest ih =>
    obtain ⟨k, ts⟩ := kv
    by_cases hk : k = key
    · subst hk
      by_cases h : k' = k
      · subst h; simp [insertGrouped, findTargets]
      · have h' : ¬ k = k' := fun hh => h hh.symm
        simp [insertGrouped, findTargets, h, h']
    · by_cases h : k' = k
      · subst h
        have h2 : ¬ k' = key := fun hh => hk (by rw [hh])
        simp [insertGrouped, findTargets, hk, h2]
      · have h' : ¬ k = k' := fun hh => h hh.symm
        simp [insertGrouped, findTargets, hk, h, h', ih]

theorem findTargets_foldl (rows : List TableRow)
    (g : List ((String × String) × List Target)) (k : String × String) :
    findTargets (rows.foldl groupStep g) k =
      findTargets g k ++ (rows.filter (fun r => rowKey r = k)).map targetOfRow := by
  induction rows generalizing g with
  | nil => simp
  | cons r rs ih =>
    simp only [List.foldl_cons, List.filter_cons]
    rw [ih]
    by_cases h : rowKey r = k
    · subst h
      simp [groupStep, findTargets_insertGrouped]
    · have h' : ¬ k = rowKey r := fun hh => h hh.symm
      simp [groupStep, findTargets_insertGrouped, h, h']

theorem keysOf_foldl (rows : List TableRow)
    (g : List ((String × String) × List Target)) :
    keysOf (rows.foldl groupStep g) =
      keysOf g ++ dedupKeepFirst
        ((rows.map rowKey).filter (fun k => decide (k ∉ keysOf g))) := by
  induction rows generalizing g with
  | nil => simp [dedupKeepFirst_nil]
  | cons r rs ih =>
    simp only [List.foldl_cons, List.map_cons, List.filter_cons]
    rw [ih]
    have hkeys := keysOf_insertGrouped g (rowKey r) (targetOfRow r)
    by_cases hmem : rowKey r ∈ keysOf g
    · simp only [groupStep, hkeys, if_pos hmem]
      simp [hmem]
    · simp only [groupStep, hkeys, if_neg hmem]
      have hdec : decide (rowKey r ∉ keysOf g) = true := by simp [hmem]
      rw [hdec]
      simp only [if_true, cond_true, List.append_assoc, List.singleton_append]
      rw [dedupKeepFirst_cons]
      congr 2
      rw [List.filter_filter]
      congr 1
      apply List.filter_congr
      intro x _
      by_cases hx : x ∈ keysOf g
      · simp [hx]
      · by_cases hxr : x = rowKey r
        · subst hxr; simp [hx]
        · simp [hx, hxr]

theorem mem_of_mem_dedupKeepFirst (l : List (String × String)) (x : String × String)
    (hx : x ∈ dedupKeepFirst l) : x ∈ l := by
  induction l using dedupKeepFirst.induct with
  | case1 => simp [dedupKeepFirst] at hx
  | case2 k ks ih =>
    rw [dedupKeepFirst] at hx
    rcases List.mem_cons.mp hx with h | h
    · simp [h]
    · have := ih h
      rcases List.mem_filter.mp this with ⟨hmem, _⟩
      simp [hmem]

theorem nodup_dedupKeepFirst (l : List (String × String)) :
    (dedupKeepFirst l).Nodup := by
  induction l using dedupKeepFirst.induct with
  | case1 => simp [dedupKeepFirst]
  | case2 k ks ih =>
    rw [dedupKeepFirst]
    refine List.nodup_cons.mpr ⟨?_, ih⟩
    intro hk
    have := mem_of_mem_dedupKeepFirst _ _ hk
    rcases List.mem_filter.mp this with ⟨_, hne⟩
    simp at hne

theorem findTargets_of_mem (g : List ((String × String) × List Target))
    (hnd : (keysOf g).Nodup) (kv : (String × String) × List Target)
    (hkv : kv ∈ g) : findTargets g kv.1 = kv.2 := by
  induction g with
  | nil => simp at hkv
  | cons hd rest ih =>
    obtain ⟨k, ts⟩ := hd
    simp only [keysOf, List.map_cons, List.nodup_cons] at hnd
    rcases List.mem_cons.mp hkv with h | h
    · subst h
      simp [findTargets]
    · have hne : ¬ k = kv.1 := by
        intro hk
        exact hnd.1 (hk ▸ (List.mem_map.mpr ⟨kv, h, rfl⟩))
      simp only [findTargets, if_neg hne]
      exact ih hnd.2 h

theorem keysOf_groupRows (rows : List TableRow) :
    keysOf (groupRows rows) = dedupKeepFirst (rows.map rowKey) := by
  unfold groupRows
  have : (fun g row => insertGrouped g (rowKey row) (targetOfRow row)) = groupStep := rfl
  rw [this, keysOf_foldl]
  simp [keysOf]

theorem findTargets_groupRows (rows : List TableRow) (k : String × String) :
    findTargets (groupRows rows) k =
      (rows.filter (fun r => rowKey r = k)).map targetOfRow := by
  unfold groupRows
  have : (fun g row => insertGrouped g (rowKey row) (targetOfRow row)) = groupStep := rfl
  rw [this, findTargets_foldl]
  simp [findTargets]

end Controller

/-! ## Lemmas about the poll loop -/

namespace Controller

theorem pollLoopAux_unfold (responses : Nat → StatusResponse)
    (elapsed idx : Nat) (fs ru : Option String) :
    pollLoopAux responses elapsed idx fs ru =
      if elapsed ≤ max_wait then
        (if isTerminal (responses idx).status then
          { finalStatus := (responses idx).status,
            reportUrl := (responses idx).reportUrl,
            pollCount := idx + 1, brokeEarly := true }
        else pollLoopAux responses (elapsed + poll_interval) (idx + 1)
          (responses idx).status (responses idx).reportUrl)
      else
        { finalStatus := fs, reportUrl := ru, pollCount := idx,
          brokeEarly := false } := by
  rw [pollLoopAux.eq_def]
  simp

/-- Full characterisation of the loop, for a start state `elapsed = 10 * k`
after `k` completed polls (the loop maintains `elapsed = poll_interval *
idx`): the number of polls is at most 61; every status polled strictly
before the last one is non-terminal; on `break` the result carries the
first terminal response; on timeout exactly 61 polls happened and the
result carries the last polled response. -/
theorem pollLoopAux_spec (responses : Nat → StatusResponse) :
    ∀ n k fs ru, k + n = 61 →
      (pollLoopAux responses (10 * k) k fs ru).pollCount ≤ 61 ∧
      (∀ i, k ≤ i → i + 1 < (pollLoopAux responses (10 * k) k fs ru).pollCount →
        isTerminal (responses i).status = false) ∧
      ((pollLoopAux responses (10 * k) k fs ru).brokeEarly = true →
        k < (pollLoopAux responses (10 * k) k fs ru).pollCount ∧
        isTerminal (responses ((pollLoopAux responses (10 * k) k fs ru).pollCount - 1)).status = true ∧
        (pollLoopAux responses (10 * k) k fs ru).finalStatus =
          (responses ((pollLoopAux responses (10 * k) k fs ru).pollCount - 1)).status ∧
        (pollLoopAux responses (10 * k) k fs ru).reportUrl =
          (responses ((pollLoopAux responses (10 * k) k fs ru).pollCount - 1)).reportUrl) ∧
      ((pollLoopAux responses (10 * k) k fs ru).brokeEarly = false →
        (pollLoopAux responses (10 * k) k fs ru).pollCount = 61 ∧
        (k = 61 → (pollLoopAux responses (10 * k) k fs ru).finalStatus = fs ∧
          (pollLoopAux responses (10 * k) k fs ru).reportUrl = ru) ∧
        (k ≤ 60 →
          (pollLoopAux responses (10 * k) k fs ru).finalStatus = (responses 60).status ∧
          (pollLoopAux responses (10 * k) k fs ru).reportUrl = (responses 60).reportUrl) ∧
        (∀ i, k ≤ i → i ≤ 60 → isTerminal (responses i).status = false)) := by
  intro n
  induction n with
  | zero =>
    intro k fs ru hk
    have hk61 : k = 61 := by omega
    subst hk61
    have hcond : ¬ (10 * 61 ≤ max_wait) := by simp [max_wait]
    rw [pollLoopAux_unfold, if_neg hcond]
    dsimp only
    refine ⟨by omega, ?_, ?_, ?_⟩
    · intro i hi hilt
      omega
    · intro hbroke
      exact absurd hbroke (by simp)
    · intro _
      exact ⟨rfl, fun _ => ⟨rfl, rfl⟩, fun h => by omega,
        fun i hi1 hi2 => absurd (Nat.le_trans hi1 hi2) (by omega)⟩
  | succ n ih =>
    intro k fs ru hk
    have hkle : k ≤ 60 := by omega
    have hcond : 10 * k ≤ max_wait := by simp only [max_wait]; omega
    rw [pollLoopAux_unfold, if_pos hcond]
    by_cases hterm : isTerminal (responses k).status
    · rw [if_pos hterm]
      dsimp only
      refine ⟨by omega, ?_, ?_, ?_⟩
      · intro i hi hilt
        omega
      · intro _
        exact ⟨by omega, hterm, rfl, rfl⟩
      · intro hfalse
        exact absurd hfalse (by simp)
    · rw [if_neg hterm]
      have h10 : 10 * k + poll_interval = 10 * (k + 1) := by
        simp only [poll_interval]
        ring
      rw [h10]
      obtain ⟨hle, hnon, hbroke, htime⟩ :=
        ih (k + 1) (responses k).status (responses k).reportUrl (by omega)
      refine ⟨hle, ?_, ?_, ?_⟩
      · intro i hi hilt
        rcases Nat.eq_or_lt_of_le hi with hik | hik
        · rw [← hik]
          simpa using hterm
        · exact hnon i (by omega) hilt
      · intro hb
        obtain ⟨h1, h2, h3, h4⟩ := hbroke hb
        exact ⟨by omega, h2, h3, h4⟩
      · intro hb
        obtain ⟨h1, _, h3, h4⟩ := htime hb
        refine ⟨h1, fun hk61 => by omega, fun _ => ?_, ?_⟩
        · rcases Nat.eq_or_lt_of_le hkle with hk60 | hk60
          · obtain ⟨hf, hr⟩ := (htime hb).2.1 (by omega)
            rw [hf, hr, ← hk60]
            exact ⟨rfl, rfl⟩
          · exact h3 (by omega)
        · intro i hi1 hi2
          rcases Nat.eq_or_lt_of_le hi1 with hik | hik
          · rw [← hik]
            simpa using hterm
          · exact h4 i (by omega) hi2

end Controller

namespace Controller

/-- Top-level corollary of `pollLoopAux_spec` for the loop as entered at
controller.py line 333 / 528 (`elapsed = 0`, no polls yet). -/
theorem pollLoop_spec (responses : Nat → StatusResponse) :
    (pollLoop responses).pollCount ≤ 61 ∧
    (∀ i, i + 1 < (pollLoop responses).pollCount →
      isTerminal (responses i).status = false) ∧
    ((pollLoop responses).brokeEarly = true →
      0 < (pollLoop responses).pollCount ∧
      isTerminal (responses ((pollLoop responses).pollCount - 1)).status = true ∧
      (pollLoop responses).finalStatus =
        (responses ((pollLoop responses).pollCount - 1)).status ∧
      (pollLoop responses).reportUrl =
        (responses ((pollLoop responses).pollCount - 1)).reportUrl) ∧
    ((pollLoop responses).brokeEarly = false →
      (pollLoop responses).pollCount = 61 ∧
      (pollLoop responses).finalStatus = (responses 60).status ∧
      (pollLoop responses).reportUrl = (responses 60).reportUrl ∧
      (∀ i, i ≤ 60 → isTerminal (responses i).status = false)) := by
  obtain ⟨h1, h2, h3, h4⟩ := pollLoopAux_spec responses 61 0 none none rfl
  refine ⟨h1, fun i hi => h2 i (Nat.zero_le i) hi, h3, fun hb => ?_⟩
  obtain ⟨hc, _, hlast, hnon⟩ := h4 hb
  exact ⟨hc, (hlast (by omega)).1, (hlast (by omega)).2,
    fun i hi => hnon i (Nat.zero_le i) hi⟩

/-- The values of `final_status` and `report_url` after the loop are those
of the last polled response. -/
theorem pollLoop_last (responses : Nat → StatusResponse) :
    (pollLoop responses).finalStatus =
      (responses ((pollLoop responses).pollCount - 1)).status ∧
    (pollLoop responses).reportUrl =
      (responses ((pollLoop responses).pollCount - 1)).reportUrl := by
  obtain ⟨_, _, h3, h4⟩ := pollLoop_spec responses
  cases hb : (pollLoop responses).brokeEarly with
  | true =>
    obtain ⟨_, _, hf, hr⟩ := h3 hb
    exact ⟨hf, hr⟩
  | false =>
    obtain ⟨hc, hf, hr, _⟩ := h4 hb
    rw [hc]
    exact ⟨hf, hr⟩

/-- Concrete run: the status endpoint always answers `"inprogress"`; the
loop polls 61 times and times out. -/
theorem pollLoop_const_inprogress :
    pollLoop (fun _ => { status := some "inprogress", reportUrl := none }) =
      { finalStatus := some "inprogress", reportUrl := none,
        pollCount := 61, brokeEarly := false } := by
  simp [pollLoop, pollLoopAux_unfold, isTerminal, terminalStatuses,
    max_wait, poll_interval]

/-- Concrete run: the first poll answers `"failed"` with a report URL; the
loop breaks after one poll. -/
theorem pollLoop_const_failed :
    pollLoop (fun _ => { status := some "failed", reportUrl := some "http://x/report" }) =
      { finalStatus := some "failed", reportUrl := some "http://x/report",
        pollCount := 1, brokeEarly := true } := by
  simp [pollLoop, pollLoopAux_unfold, isTerminal, terminalStatuses,
    max_wait, poll_interval]

/-- Concrete run: the first poll answers `"success"`. -/
theorem pollLoop_const_success :
    pollLoop (fun _ => { status := some "success", reportUrl := none }) =
      { finalStatus := some "success", reportUrl := none,
        pollCount := 1, brokeEarly := true } := by
  simp [pollLoop, pollLoopAux_unfold, isTerminal, terminalStatuses,
    max_wait, poll_interval]

end Controller

/-! ## Exception-handling skeletons -/

namespace Controller

/-- A Python exception as observed by the `except` clauses of
controller.py: either a `vkt.UserError`, or an exception of any other
class; both carry `str(e)`. -/
inductive PyExc where
  | userError (msg : String)
  | other (cls : String) (msg : String)
deriving DecidableEq, Repr

/-- Python `str(e)`. -/
def excMessage : PyExc → String
  | .userError m => m
  | .other _ m => m

/-- Whether an exception is a `vkt.UserError`. -/
def isUserError : PyExc → Bool
  | .userError _ => true
  | .other _ _ => false

/-- Control-flow skeleton of `Controller.process_with_workitem`
(controller.py lines 212-374) as far as exception handling is concerned.
`getToken` models lines 218-219 (`vkt.external.OAuth2Integration(...)` and
`integration.get_access_token()`), which run BEFORE the `try` statement;
`body` models the whole `try` block (lines 221-369) as a fallible
computation using the access token (all its external calls live inside
it); `formatTraceback` models `traceback.format_exc()`.  The
`except Exception as e` clause (lines 371-374) turns any exception `e`
raised in the body into
`vkt.UserError(f"Error in Automation workflow: {str(e)}\n\nDetails:\n{error_detail}")`;
an exception raised by `getToken` is not caught by anything. -/
def process_with_workitem (getToken : Except PyExc String)
    (body : String → Except PyExc Unit)
    (formatTraceback : PyExc → String) : Except PyExc Unit :=
  match getToken with
  | .error e => .error e
  | .ok access_token =>
    match body access_token with
    | .ok u => .ok u
    | .error e => .error (.userError
        ("Error in Automation workflow: " ++ excMessage e ++
          "\n\nDetails:\n" ++ formatTraceback e))

/-- Control-flow skeleton of `Controller.export_to_ifc` (controller.py
lines 405-569): identical to `process_with_workitem` except for the
message of the `except` clause (lines 566-569), which reads
`f"Error in IFC Export workflow: {str(e)}\n\nDetails:\n{error_detail}"`.
The token retrieval (lines 411-412) again precedes the `try`. -/
def export_to_ifc (getToken : Except PyExc String)
    (body : String → Except PyExc Unit)
    (formatTraceback : PyExc → String) : Except PyExc Unit :=
  match getToken with
  | .error e => .error e
  | .ok access_token =>
    match body access_token with
    | .ok u => .ok u
    | .error e => .error (.userError
        ("Error in IFC Export workflow: " ++ excMessage e ++
          "\n\nDetails:\n" ++ formatTraceback e))

/-- The body of the `try` of `get_view_names_for_file` (controller.py
lines 53-62): retrieve an OAuth token, fetch and decode the manifest over
HTTP (`requests.get`, `raise_for_status`, `.json()`), and extract the view
names with `get_view_names_from_manifest` (a helper from `app/helpers.py`,
outside the embedded file, so only its fallibility is modelled).  Each
stage may raise. -/
def viewNamesPipeline {Manifest : Type}
    (getToken : Except PyExc String)
    (fetchManifest : String → Except PyExc Manifest)
    (extractViews : Manifest → Except PyExc (List String)) :
    Except PyExc (List String) := do
  let token ← getToken
  let manifest ← fetchManifest token
  extractViews manifest

/-- Embedding of `get_view_names_for_file` (controller.py lines 47-65):
the whole body sits inside `try: ... except Exception: return []`. -/
def get_view_names_for_file {Manifest : Type}
    (getToken : Except PyExc String)
    (fetchManifest : String → Except PyExc Manifest)
    (extractViews : Manifest → Except PyExc (List String)) : List String :=
  match viewNamesPipeline getToken fetchManifest extractViews with
  | .ok names => names
  | .error _ => []

/-- Embedding of `get_view_names_options` (controller.py lines 68-82).
`output_file` models the truthiness test
`if not params.step_ifc.visualize.output_file` (`none` = unset field);
`getToken` models the `OAuth2Integration` token retrieval,
`getLatestVersion` the `autodesk_file.get_latest_version(token)` call
yielding the version URN, and `viewNames` the call of
`get_view_names_for_file` on that URN (which, by C9, never raises).  The
result list models the `vkt.OptionListElement(label=name, value=name)`
objects as `(label, value)` pairs.  Nothing in this function catches
exceptions, so failures of the oracles propagate as `Except.error`. -/
def get_view_names_options {File : Type}
    (output_file : Option File)
    (getToken : Except PyExc String)
    (getLatestVersion : File → String → Except PyExc String)
    (viewNames : String → List String) :
    Except PyExc (List (String × String)) :=
  match output_file with
  | none => .ok []
  | some autodesk_file => do
    let token ← getToken
    let urn ← getLatestVersion autodesk_file token
    pure ((viewNames urn).map (fun name => (name, name)))

end Controller

/-! ## Remaining helper lemmas for the grouping claims -/

namespace Controller

theorem sum_insertGrouped (g : List ((String × String) × List Target))
    (key : String × String) (t : Target) :
    ((insertGrouped g key t).map (fun kv => kv.2.length)).sum =
      (g.map (fun kv => kv.2.length)).sum + 1 := by
  induction g with
  | nil => simp [insertGrouped]
  | cons kv rest ih =>
    obtain ⟨k, ts⟩ := kv
    by_cases hk : k = key
    · simp only [insertGrouped, if_pos hk, List.map_cons, List.sum_cons,
        List.length_append, List.length_cons, List.length_nil]
      omega
    · simp only [insertGrouped, if_neg hk, List.map_cons, List.sum_cons, ih]
      omega

theorem sum_groupStep_foldl (rows : List TableRow)
    (g : List ((String × String) × List Target)) :
    ((rows.foldl groupStep g).map (fun kv => kv.2.length)).sum =
      (g.map (fun kv => kv.2.length)).sum + rows.length := by
  induction rows generalizing g with
  | nil => simp
  | cons r rs ih =>
    simp only [List.foldl_cons, List.length_cons, ih, groupStep,
      sum_insertGrouped]
    omega

theorem nonempty_insertGrouped (g : List ((String × String) × List Target))
    (key : String × String) (t : Target)
    (h : ∀ kv ∈ g, kv.2 ≠ []) :
    ∀ kv ∈ insertGrouped g key t, kv.2 ≠ [] := by
  induction g with
  | nil =>
    intro kv hkv
    simp only [insertGrouped, List.mem_singleton] at hkv
    subst hkv
    simp
  | cons hd rest ih =>
    obtain ⟨k, ts⟩ := hd
    intro kv hkv
    by_cases hk : k = key
    · simp only [insertGrouped, if_pos hk, List.mem_cons] at hkv
      rcases hkv with hkv | hkv
      · subst hkv
        simp
      · exact h kv (List.mem_cons_of_mem _ hkv)
    · simp only [insertGrouped, if_neg hk, List.mem_cons] at hkv
      rcases hkv with hkv | hkv
      · subst hkv
        exact h (k, ts) (List.mem_cons_self _ _)
      · exact ih (fun kv' hkv' => h kv' (List.mem_cons_of_mem _ hkv')) kv hkv

theorem nonempty_groupStep_foldl (rows : List TableRow)
    (g : List ((String × String) × List Target))
    (h : ∀ kv ∈ g, kv.2 ≠ []) :
    ∀ kv ∈ rows.foldl groupStep g, kv.2 ≠ [] := by
  induction rows generalizing g with
  | nil => exact h
  | cons r rs ih =>
    simp only [List.foldl_cons]
    exact ih _ (nonempty_insertGrouped g (rowKey r) (targetOfRow r) h)

end Controller

/-! ## Claim theorems: the grouping transform -/

namespace Controller

/-- C1: `create_json_from_params` performs a deterministic grouping keyed
by (parameter name, parameter group): the entries' keys are exactly the
distinct `(parameter_name, parameter_group)` pairs of the rows, in
first-occurrence order (hence exactly one entry per distinct pair), and
each entry's `Targets` list is exactly the `{TypeName, FamilyName, Value}`
projection of the rows carrying that key, in input order. -/
theorem create_json_from_params_grouping (rows : List TableRow) :
    (create_json_from_params rows).map entryKey =
      dedupKeepFirst (rows.map rowKey) ∧
    ∀ e ∈ create_json_from_params rows,
      e.Targets =
        (rows.filter (fun r => rowKey r = entryKey e)).map targetOfRow := by
  constructor
  · have h1 : (create_json_from_params rows).map entryKey =
        keysOf (groupRows rows) := by
      simp only [create_json_from_params, keysOf, List.map_map]
      rfl
    rw [h1, keysOf_groupRows]
  · intro e he
    simp only [create_json_from_params, List.mem_map] at he
    obtain ⟨kv, hkv, hkve⟩ := he
    have hnd : (keysOf (groupRows rows)).Nodup := by
      rw [keysOf_groupRows]
      exact nodup_dedupKeepFirst _
    have h2 := findTargets_of_mem _ hnd kv hkv
    have hek : entryKey e = kv.1 := by
      rw [← hkve]
      rfl
    have het : e.Targets = kv.2 := by
      rw [← hkve]
    rw [het, hek, ← h2, findTargets_groupRows]

/-- Closed instance of C1 at a concrete three-row table with a repeated
key, discharging the membership hypothesis of the second conjunct. -/
theorem create_json_from_params_grouping_witness :
    (create_json_from_params
        [⟨"P", "G", "T1", "F1", "1"⟩, ⟨"Q", "H", "T2", "F2", "2"⟩,
          ⟨"P", "G", "T3", "F3", "3"⟩]).map entryKey =
      dedupKeepFirst [("P", "G"), ("Q", "H"), ("P", "G")] ∧
    (ParamConfig.mk "P" "G" [⟨"T1", "F1", "1"⟩, ⟨"T3", "F3", "3"⟩]).Targets =
      (([⟨"P", "G", "T1", "F1", "1"⟩, ⟨"Q", "H", "T2", "F2", "2"⟩,
          ⟨"P", "G", "T3", "F3", "3"⟩] : List TableRow).filter
        (fun r => rowKey r =
          entryKey (ParamConfig.mk "P" "G"
            [⟨"T1", "F1", "1"⟩, ⟨"T3", "F3", "3"⟩]))).map targetOfRow := by
  refine ⟨(create_json_from_params_grouping _).1,
    (create_json_from_params_grouping _).2 _ ?_⟩
  decide

/-- C6: `create_json_from_params` is deterministic — equal row lists give
equal results (it is a pure function of the row list). -/
theorem create_json_from_params_deterministic (rows₁ rows₂ : List TableRow)
    (h : rows₁ = rows₂) :
    create_json_from_params rows₁ = create_json_from_params rows₂ :=
  congrArg create_json_from_params h

/-- Closed instance of C6 at a concrete row list. -/
theorem create_json_from_params_deterministic_witness :
    create_json_from_params [⟨"P", "G", "T", "F", "V"⟩] =
      create_json_from_params [⟨"P", "G", "T", "F", "V"⟩] :=
  create_json_from_params_deterministic _ _ rfl

/-- C7: the grouping is a partition of the input rows: the `Targets`
lengths sum to the number of rows, every entry has a non-empty `Targets`
list, and the empty table yields the empty result. -/
theorem create_json_from_params_partition (rows : List TableRow) :
    ((create_json_from_params rows).map (fun e => e.Targets.length)).sum =
      rows.length ∧
    (∀ e ∈ create_json_from_params rows, e.Targets ≠ []) ∧
    create_json_from_params [] = ([] : List ParamConfig) := by
  refine ⟨?_, ?_, rfl⟩
  · have h1 : ((create_json_from_params rows).map
        (fun e => e.Targets.length)).sum =
        ((groupRows rows).map (fun kv => kv.2.length)).sum := by
      simp only [create_json_from_params, List.map_map]
      rfl
    have h2 : groupRows rows = rows.foldl groupStep [] := rfl
    rw [h1, h2, sum_groupStep_foldl]
    simp
  · intro e he
    simp only [create_json_from_params, List.mem_map] at he
    obtain ⟨kv, hkv, hkve⟩ := he
    have h2 : groupRows rows = rows.foldl groupStep [] := rfl
    rw [h2] at hkv
    have := nonempty_groupStep_foldl rows [] (by simp) kv hkv
    rw [← hkve]
    simpa using this

/-- Closed instance of C7 at a concrete one-row table, discharging the
membership hypothesis of the non-emptiness conjunct. -/
theorem create_json_from_params_partition_witness :
    ((create_json_from_params [⟨"P", "G", "T", "F", "V"⟩]).map
      (fun e => e.Targets.length)).sum = 1 ∧
    (ParamConfig.mk "P" "G" [⟨"T", "F", "V"⟩]).Targets ≠ [] := by
  refine ⟨(create_json_from_params_partition _).1,
    (create_json_from_params_partition
      [⟨"P", "G", "T", "F", "V"⟩]).2.1 _ ?_⟩
  decide

end Controller

/-! ## Claim theorems: the poll loop -/

namespace Controller

/-- C2: for every sequence of status responses the poll loop of
`process_with_workitem` (and the identical loop of `export_to_ifc`)
terminates: it stops polling as soon as a terminal status is returned,
and otherwise exits after the fixed timeout with exactly
`max_wait / poll_interval + 1 = 61` polls; in every case at most 61 polls
happen. -/
theorem poll_loop_terminates (responses : Nat → StatusResponse) :
    max_wait / poll_interval + 1 = 61 ∧
    (pollLoop responses).pollCount ≤ max_wait / poll_interval + 1 ∧
    (∀ i, isTerminal (responses i).status = true →
      (pollLoop responses).pollCount ≤ i + 1) ∧
    ((pollLoop responses).brokeEarly = false →
      (pollLoop responses).pollCount = max_wait / poll_interval + 1) := by
  obtain ⟨h1, h2, _, h4⟩ := pollLoop_spec responses
  have h61 : max_wait / poll_interval + 1 = 61 := by decide
  refine ⟨h61, by rw [h61]; exact h1, ?_, ?_⟩
  · intro i ht
    by_contra hgt
    have hlt : i + 1 < (pollLoop responses).pollCount := by omega
    have := h2 i hlt
    rw [this] at ht
    exact Bool.false_ne_true ht
  · intro hb
    rw [h61]
    exact (h4 hb).1

/-- Closed instance of C2: a first-poll `"failed"` stops the loop after
one poll; an endless `"inprogress"` stream times out at exactly 61
polls. -/
theorem poll_loop_terminates_witness :
    (pollLoop (fun _ =>
      { status := some "failed", reportUrl := some "http://x/report" })).pollCount ≤ 0 + 1 ∧
    (pollLoop (fun _ =>
      { status := some "inprogress", reportUrl := none })).pollCount =
      max_wait / poll_interval + 1 := by
  constructor
  · exact (poll_loop_terminates _).2.2.1 0 (by decide)
  · exact (poll_loop_terminates _).2.2.2 (by rw [pollLoop_const_inprogress])

/-- C3: the loop never exits early on a non-terminal status — every status
polled strictly before the final one is non-terminal — and it breaks out
of the loop early exactly when the polled status is one of `"success"`,
`"failed"`, `"cancelled"`. -/
theorem poll_loop_breaks_iff_terminal (responses : Nat → StatusResponse) :
    (∀ i, i + 1 < (pollLoop responses).pollCount →
      isTerminal (responses i).status = false) ∧
    ((pollLoop responses).brokeEarly = true ↔
      isTerminal
        (responses ((pollLoop responses).pollCount - 1)).status = true) := by
  obtain ⟨_, h2, h3, h4⟩ := pollLoop_spec responses
  refine ⟨h2, ?_, ?_⟩
  · intro hb
    exact (h3 hb).2.1
  · intro hterm
    cases hbe : (pollLoop responses).brokeEarly with
    | true => rfl
    | false =>
      obtain ⟨hc, _, _, hnon⟩ := h4 hbe
      rw [hc] at hterm
      have h60 := hnon 60 (by omega)
      have h6160 : (61 : Nat) - 1 = 60 := rfl
      rw [h6160, h60] at hterm
      exact absurd hterm Bool.false_ne_true

/-- Closed instance of C3: with a non-terminal first answer the loop is
still running after the first poll; with a terminal last answer the loop
broke early. -/
theorem poll_loop_breaks_iff_terminal_witness :
    isTerminal
      ((fun _ => { status := some "inprogress", reportUrl := none } :
        Nat → StatusResponse) 0).status = false ∧
    (pollLoop (fun _ =>
      { status := some "success", reportUrl := none })).brokeEarly = true := by
  constructor
  · exact (poll_loop_breaks_iff_terminal _).1 0
      (by rw [pollLoop_const_inprogress]; decide)
  · exact (poll_loop_breaks_iff_terminal _).2.mpr (by decide)

/-- C4: after the poll loop, `process_with_workitem` and `export_to_ifc`
raise `vkt.UserError` if and only if the final polled status is not
`"success"`; the raised message contains the final status, and contains
the report URL whenever the last polled status response included one. -/
theorem post_poll_raise_iff_not_success (responses : Nat → StatusResponse) :
    ∀ failMsg, (failMsg = workitemFailMsg ∨ failMsg = ifcFailMsg) →
      ((checkPollOutcome failMsg (pollLoop responses) = none ↔
        (pollLoop responses).finalStatus = some "success") ∧
      ∀ msg, checkPollOutcome failMsg (pollLoop responses) = some msg →
        ((∃ a b, msg = a ++ pyStr (pollLoop responses).finalStatus ++ b) ∧
        ∀ u, (responses ((pollLoop responses).pollCount - 1)).reportUrl =
            some u →
          ∃ a b, msg = a ++ u ++ b)) := by
  intro failMsg _
  obtain ⟨hfs, hru⟩ := pollLoop_last responses
  constructor
  · constructor
    · intro hnone
      by_contra hne
      simp [checkPollOutcome, hne] at hnone
    · intro hs
      simp [checkPollOutcome, hs]
  · intro msg hmsg
    have hne : ¬ ((pollLoop responses).finalStatus = some "success") := by
      intro hs
      simp [checkPollOutcome, hs] at hmsg
    by_cases htr : truthy (pollLoop responses).reportUrl = true
    · have hmsg' : msg = failMsg ++ pyStr (pollLoop responses).finalStatus ++
          "\nReport URL: " ++ pyStr (pollLoop responses).reportUrl := by
        simp [checkPollOutcome, hne, htr] at hmsg
        exact hmsg.symm
      constructor
      · refine ⟨failMsg,
          "\nReport URL: " ++ pyStr (pollLoop responses).reportUrl, ?_⟩
        rw [hmsg', String.append_assoc]
      · intro u hu
        have huru : (pollLoop responses).reportUrl = some u := by
          rw [hru]
          exact hu
        have hpy : pyStr (pollLoop responses).reportUrl = u := by
          rw [huru]
          rfl
        refine ⟨failMsg ++ pyStr (pollLoop responses).finalStatus ++
          "\nReport URL: ", "", ?_⟩
        rw [hmsg', hpy, String.append_empty]
    · have htr' : truthy (pollLoop responses).reportUrl = false := by
        cases h : truthy (pollLoop responses).reportUrl
        · rfl
        · exact absurd h htr
      have hmsg' : msg = failMsg ++ pyStr (pollLoop responses).finalStatus := by
        simp [checkPollOutcome, hne, htr'] at hmsg
        exact hmsg.symm
      constructor
      · refine ⟨failMsg, "", ?_⟩
        rw [hmsg', String.append_empty]
      · intro u hu
        have huru : (pollLoop responses).reportUrl = some u := by
          rw [hru]
          exact hu
        have hu0 : u = "" := by
          by_contra hne0
          rw [huru] at htr'
          simp [truthy, hne0] at htr'
        refine ⟨msg, "", ?_⟩
        rw [hu0, String.append_empty, String.append_empty]

/-- Closed instance of C4: with a first poll answering `"failed"` and a
report URL, the raised message contains both the status and the URL. -/
theorem post_poll_raise_iff_not_success_witness :
    (∃ a b, workitemFailMsg ++ "failed" ++ "\nReport URL: " ++
      "http://x/report" = a ++ "failed" ++ b) ∧
    (∃ a b, workitemFailMsg ++ "failed" ++ "\nReport URL: " ++
      "http://x/report" = a ++ "http://x/report" ++ b) := by
  have h := post_poll_raise_iff_not_success
    (fun _ => { status := some "failed", reportUrl := some "http://x/report" })
    workitemFailMsg (Or.inl rfl)
  have hchk : checkPollOutcome workitemFailMsg
      (pollLoop (fun _ =>
        { status := some "failed", reportUrl := some "http://x/report" })) =
      some (workitemFailMsg ++ "failed" ++ "\nReport URL: " ++
        "http://x/report") := by
    rw [pollLoop_const_failed]
    decide
  obtain ⟨hstat, hurl⟩ := h.2 _ hchk
  constructor
  · rw [pollLoop_const_failed] at hstat
    exact hstat
  · exact hurl "http://x/report" (by rw [pollLoop_const_failed])

/-! ## Claim theorems: exception handling -/

/-- C5 counterexample: a failure during the OAuth token retrieval of
`process_with_workitem` (controller.py lines 218-219, before the `try`
statement) escapes unchanged — here a `ConnectionError` — and is not
re-surfaced as a `vkt.UserError`, refuting the claim that all failures of
the workflow are caught and re-surfaced as `vkt.UserError`. -/
theorem process_with_workitem_token_error_escapes :
    process_with_workitem
      (Except.error (PyExc.other "ConnectionError" "token endpoint down"))
      (fun _ => Except.ok ())
      (fun _ => "Traceback (most recent call last): ...") =
      Except.error (PyExc.other "ConnectionError" "token endpoint down") ∧
    isUserError (PyExc.other "ConnectionError" "token endpoint down") = false :=
  ⟨rfl, rfl⟩

/-- C5 (amended): every failure raised inside the `try` block of
`process_with_workitem` or `export_to_ifc` — any exception whatsoever —
is caught by the broad `except Exception` clause and re-surfaced as a
single `vkt.UserError` whose message has the formatted traceback appended,
so no exception of any other kind escapes the `try` block; a failure of
the OAuth token retrieval that precedes the `try` propagates unchanged. -/
theorem workflow_exceptions_wrapped (tok : String)
    (body : String → Except PyExc Unit) (tb : PyExc → String) :
    (∀ e, body tok = Except.error e →
      process_with_workitem (Except.ok tok) body tb =
        Except.error (PyExc.userError ("Error in Automation workflow: " ++
          excMessage e ++ "\n\nDetails:\n" ++ tb e)) ∧
      export_to_ifc (Except.ok tok) body tb =
        Except.error (PyExc.userError ("Error in IFC Export workflow: " ++
          excMessage e ++ "\n\nDetails:\n" ++ tb e))) ∧
    ((∃ u, process_with_workitem (Except.ok tok) body tb = Except.ok u) ∨
      ∃ m, process_with_workitem (Except.ok tok) body tb =
        Except.error (PyExc.userError m)) ∧
    (∀ e getToken, getToken = Except.error e →
      process_with_workitem getToken body tb = Except.error e ∧
      export_to_ifc getToken body tb = Except.error e) := by
  refine ⟨?_, ?_, ?_⟩
  · intro e he
    constructor
    · simp [process_with_workitem, he]
    · simp [export_to_ifc, he]
  · cases hb : body tok with
    | ok u =>
      left
      exact ⟨u, by simp [process_with_workitem, hb]⟩
    | error e =>
      right
      exact ⟨"Error in Automation workflow: " ++ excMessage e ++
        "\n\nDetails:\n" ++ tb e, by simp [process_with_workitem, hb]⟩
  · intro e getToken hg
    subst hg
    exact ⟨rfl, rfl⟩

/-- Closed instance of the amended C5: a `RuntimeError` raised inside the
`try` surfaces as a `vkt.UserError` with the traceback appended, and a
token-retrieval failure propagates unchanged. -/
theorem workflow_exceptions_wrapped_witness :
    process_with_workitem (Except.ok "tok")
      (fun _ => Except.error (PyExc.other "RuntimeError" "boom"))
      (fun _ => "TB") =
      Except.error (PyExc.userError ("Error in Automation workflow: " ++
        "boom" ++ "\n\nDetails:\n" ++ "TB")) ∧
    process_with_workitem (Except.error (PyExc.other "HTTPError" "401"))
      (fun _ => Except.ok ()) (fun _ => "TB") =
      Except.error (PyExc.other "HTTPError" "401") := by
  constructor
  · exact ((workflow_exceptions_wrapped "tok"
      (fun _ => Except.error (PyExc.other "RuntimeError" "boom"))
      (fun _ => "TB")).1 (PyExc.other "RuntimeError" "boom") rfl).1
  · exact ((workflow_exceptions_wrapped "tok"
      (fun _ => Except.ok ()) (fun _ => "TB")).2.2
      (PyExc.other "HTTPError" "401") _ rfl).1

/-- C9: `get_view_names_for_file` never propagates an exception to its
caller: whenever any stage of its body fails (token retrieval, HTTP
request including `raise_for_status`, or manifest processing), it returns
the empty list, and when the body succeeds it returns its view names. -/
theorem get_view_names_for_file_no_raise {Manifest : Type}
    (getToken : Except PyExc String)
    (fetchManifest : String → Except PyExc Manifest)
    (extractViews : Manifest → Except PyExc (List String)) :
    (∀ e, viewNamesPipeline getToken fetchManifest extractViews =
        Except.error e →
      get_view_names_for_file getToken fetchManifest extractViews = []) ∧
    (∀ names, viewNamesPipeline getToken fetchManifest extractViews =
        Except.ok names →
      get_view_names_for_file getToken fetchManifest extractViews = names) := by
  constructor
  · intro e he
    simp [get_view_names_for_file, he]
  · intro names hn
    simp [get_view_names_for_file, hn]

/-- Closed instance of C9: a failing token retrieval yields `[]`. -/
theorem get_view_names_for_file_no_raise_witness :
    get_view_names_for_file
      (Except.error (PyExc.other "HTTPError" "500 manifest"))
      (fun _ => (Except.ok () : Except PyExc Unit))
      (fun _ => Except.ok ["{3D}", "Level 1"]) = [] :=
  (get_view_names_for_file_no_raise _ _ _).1
    (PyExc.other "HTTPError" "500 manifest") rfl

/-- C10: when no output file is selected in the IFC-export step
(`params.step_ifc.visualize.output_file` falsy), `get_view_names_options`
returns the empty option list without raising, whatever the external
services would answer — in particular even when every external call would
fail, so none of them is consulted. -/
theorem get_view_names_options_no_file {File : Type}
    (getToken : Except PyExc String)
    (getLatestVersion : File → String → Except PyExc String)
    (viewNames : String → List String) :
    get_view_names_options (none : Option File) getToken getLatestVersion
      viewNames = Except.ok [] :=
  rfl

end Controller
